import Mathlib

/-!
Verification of the breed-resolution program (a single-file Streamlit app,
src/main.py) against its natural-language specification.

The embedding models, faithfully to the Python source:
  - read_and_process_csv : derives breed_lower and the three average columns;
  - request_dog_api_data : returns the JSON message field on status 200, None otherwise;
  - extract_breed_name   : the regex search for https://images.dog.ceo/breeds/([\w-]+)/
    followed by the hyphen reverse-and-join step;
  - search_breed_in_dataframe : exact pass on breed_lower, then the pandas
    case-insensitive literal containment fallback, first row in dataset order;
  - the main resolution loop over a finite list of stubbed collaborator responses;
  - the image display step and the comparison-chart figure configuration.

Numeric CSV columns are modelled as rationals (the claims are about the exact
arithmetic the code applies, not float rounding).  Character classes are
modelled for ASCII inputs: the regex class [\w-] becomes isAlphanum or
underscore or hyphen, and the pandas case folding becomes Char.toLower.
-/

namespace PawShuffle

/-! ### Data model: one row of the reference dataset

`RawRow` is a CSV row restricted to the columns the resolution and chart
logic reads; the remaining columns (group, temperament, description and the
other category columns) are display-only pass-throughs and carry no logic.
`Row` is the processed row after read_and_process_csv. -/

structure RawRow where
  breed : String
  min_weight : ℚ
  max_weight : ℚ
  min_height : ℚ
  max_height : ℚ
  min_expectancy : ℚ
  max_expectancy : ℚ
  shedding_category : String
deriving DecidableEq, Repr

structure Row where
  breed : String
  breed_lower : String
  min_weight : ℚ
  max_weight : ℚ
  min_height : ℚ
  max_height : ℚ
  min_expectancy : ℚ
  max_expectancy : ℚ
  average_weight : ℚ
  average_height : ℚ
  average_expectancy : ℚ
  shedding_category : String
deriving DecidableEq, Repr

/-- Python str.lower(), modelled character-wise for ASCII inputs. -/
def strLower (s : String) : String :=
  String.mk (s.toList.map Char.toLower)

/-- One row of `df["breed_lower"] = df["breed"].str.lower()` and the three
average-column assignments of read_and_process_csv. -/
def processRow (r : RawRow) : Row :=
  { breed := r.breed
    breed_lower := strLower r.breed
    min_weight := r.min_weight
    max_weight := r.max_weight
    min_height := r.min_height
    max_height := r.max_height
    min_expectancy := r.min_expectancy
    max_expectancy := r.max_expectancy
    average_weight := (r.min_weight + r.max_weight) / 2
    average_height := (r.min_height + r.max_height) / 2
    average_expectancy := (r.min_expectancy + r.max_expectancy) / 2
    shedding_category := r.shedding_category }

/-- read_and_process_csv: the dataframe transformations applied row-wise. -/
def read_and_process_csv (rows : List RawRow) : List Row :=
  rows.map processRow

/-! ### Image-lookup collaborator

request_dog_api_data returns data.get("message") when response.status_code
is 200, and None otherwise.  The response is modelled by its status code and
its parsed message field. -/

def request_dog_api_data (status_code : Nat) (message : Option String) : Option String :=
  if status_code = 200 then message else none

/-! ### extract_breed_name: regex search and hyphen handling

The Python pattern is  https:\/\/images\.dog\.ceo\/breeds\/([\w-]+)\/ .
re.search scans start positions left to right.  Because the slash that must
follow the group is not a member of the class [\w-], the greedy group matches
exactly the maximal run of [\w-] characters after the literal stem, and the
match at a position succeeds iff that run is nonempty and followed by a
slash, so no backtracking case survives. -/

/-- The regex class [\w-], for ASCII inputs. -/
def tokChar (c : Char) : Bool :=
  c.isAlphanum || c == '_' || c == '-'

/-- The literal stem of the pattern. -/
def urlStem : List Char := "https://images.dog.ceo/breeds/".toList

/-- Boolean prefix test on character lists. -/
def startsWithChars : List Char → List Char → Bool
  | [], _ => true
  | _ :: _, [] => false
  | a :: as, b :: bs => a == b && startsWithChars as bs

/-- Attempt the pattern anchored at the head of `cs`; on success return the
characters captured by group 1. -/
def matchHere (cs : List Char) : Option (List Char) :=
  if startsWithChars urlStem cs then
    let rest := cs.drop urlStem.length
    let run := rest.takeWhile tokChar
    if run.isEmpty then none
    else
      match rest.drop run.length with
      | '/' :: _ => some run
      | _ => none
  else none

/-- re.search: first start position, scanning left to right, at which the
pattern matches. -/
def searchBreed : List Char → Option (List Char)
  | [] => none
  | c :: cs =>
    match matchHere (c :: cs) with
    | some r => some r
    | none => searchBreed cs

/-- Python str.split("-") on a character list: splits at every hyphen and
keeps empty pieces. -/
def splitHyphen : List Char → List (List Char)
  | [] => [[]]
  | c :: cs =>
    if c = '-' then [] :: splitHyphen cs
    else
      match splitHyphen cs with
      | [] => [[c]]
      | p :: ps => (c :: p) :: ps

/-- Python " ".join on a list of pieces. -/
def joinSpaces : List (List Char) → List Char
  | [] => []
  | p :: ps => if ps.isEmpty then p else p ++ ' ' :: joinSpaces ps

/-- extract_breed_name: regex search, then, when the captured token contains
a hyphen, " ".join(reversed(token.split("-"))). -/
def extract_breed_name (url : String) : Option String :=
  match searchBreed url.toList with
  | none => none
  | some run =>
    if run.contains '-' then
      some (String.mk (joinSpaces (splitHyphen run).reverse))
    else
      some (String.mk run)

/-! ### search_breed_in_dataframe -/

/-- Lower-cased character list of a string (ASCII model of pandas case
folding). -/
def lowerChars (s : String) : List Char := s.toList.map Char.toLower

/-- Boolean substring containment on character lists (Python `in`). -/
def isSubstrB (needle : List Char) : List Char → Bool
  | [] => needle.isEmpty
  | c :: rest => startsWithChars needle (c :: rest) || isSubstrB needle rest

/-- pandas Series.str.contains(pat, case=False, regex=False) applied to one
cell: literal containment after folding the case of both sides. -/
def containsCI (cell pat : String) : Bool :=
  isSubstrB (lowerChars pat) (lowerChars cell)

/-- First pass: df[df["breed_lower"] == breed_name], then .iloc[0]. -/
def exactPass (df : List Row) (breed_name : String) : Option Row :=
  df.find? (fun r => r.breed_lower == breed_name)

/-- Second pass: df[df["breed_lower"].str.contains(breed_name, case=False,
regex=False)], then .iloc[0]. -/
def containsPass (df : List Row) (breed_name : String) : Option Row :=
  df.find? (fun r => containsCI r.breed_lower breed_name)

/-- search_breed_in_dataframe: exact pass, else containment pass, else None. -/
def search_breed_in_dataframe (df : List Row) (breed_name : String) : Option Row :=
  match exactPass df breed_name with
  | some r => some r
  | none => containsPass df breed_name

/-! ### The main resolution loop

main repeatedly calls request_dog_api_data and passes its result — an
Optional string — straight into extract_breed_name, whose re.search raises
TypeError when handed None.  The loop is modelled over the finite list of
successive collaborator results; an exhausted list, which in the program
would mean blocking forever on further requests, is modelled as no result. -/

inductive PyError where
  | typeError
deriving DecidableEq, Repr

/-- extract_breed_name as called from main, where the argument may be None:
re.search(pattern, None) raises TypeError. -/
def extract_breed_name_py : Option String → Except PyError (Option String)
  | none => Except.error PyError.typeError
  | some url => Except.ok (extract_breed_name url)

structure Resolved where
  image_url : Option String
  breed_name : String
  df_result : Row
deriving DecidableEq, Repr

/-- The while-True loop of main, lines 124-133, run against a finite stub of
collaborator results. -/
def resolveLoop (df : List Row) : List (Option String) → Except PyError (Option Resolved)
  | [] => Except.ok none
  | resp :: rest =>
    match extract_breed_name_py resp with
    | Except.error e => Except.error e
    | Except.ok none => resolveLoop df rest
    | Except.ok (some tok) =>
      match search_breed_in_dataframe df tok with
      | some r => Except.ok (some ⟨resp, tok, r⟩)
      | none => resolveLoop df rest

/-! ### Image display (main, lines 139-148) -/

structure ImageResponse where
  status_code : Nat
  content : List Nat
deriving DecidableEq, Repr

inductive ImageView where
  | image (content : List Nat) (caption : String)
  | error (message : String)
deriving DecidableEq, Repr

/-- The single fetch of the resolved image URL: 200 shows the image,
anything else shows st.error(f"Error code: {status_code}"). -/
def render_image (resp : ImageResponse) (caption : String) : ImageView :=
  if resp.status_code = 200 then ImageView.image resp.content caption
  else ImageView.error ("Error code: " ++ toString resp.status_code)

/-! ### display_charts: the figure configuration -/

inductive AxisValue where
  | num (v : ℚ)
  | cat (s : String)
deriving DecidableEq, Repr

/-- One fig.add_annotation call: its x position, text, and subplot cell. -/
structure Marker where
  x : AxisValue
  text : String
  row : Nat
  col : Nat
deriving DecidableEq, Repr

/-- The parts of the plotly figure the spec constrains: the four traces, the
category order forced on the shedding subplot, and the four markers. -/
structure Fig where
  heightTrace : List ℚ
  weightTrace : List ℚ
  expectancyTrace : List ℚ
  sheddingTrace : List String
  sheddingCategoryOrder : List String
  markers : List Marker
deriving DecidableEq, Repr

/-- display_charts: builds the 2x2 figure.  fig.update_xaxes fixes the
category array of the row-2 col-2 subplot unconditionally; each marker is
placed at df_result's own value for that subplot's column. -/
def display_charts (df : List Row) (df_result : Row) : Fig :=
  { heightTrace := df.map (fun r => r.average_height)
    weightTrace := df.map (fun r => r.average_weight)
    expectancyTrace := df.map (fun r => r.average_expectancy)
    sheddingTrace := df.map (fun r => r.shedding_category)
    sheddingCategoryOrder := ["Infrequent", "Occasional", "Seasonal", "Regularly", "Frequent"]
    markers :=
      [ ⟨AxisValue.num df_result.average_height, df_result.breed, 1, 1⟩,
        ⟨AxisValue.num df_result.average_weight, df_result.breed, 1, 2⟩,
        ⟨AxisValue.num df_result.average_expectancy, df_result.breed, 2, 1⟩,
        ⟨AxisValue.cat df_result.shedding_category, df_result.breed, 2, 2⟩ ] }

/-! ### Concrete fixture rows, mirroring the spec's worked examples -/

def rawPoodle : RawRow := ⟨"Poodle", 20, 32, 45, 60, 10, 18, "Seasonal"⟩

def rawToyPoodle : RawRow := ⟨"Toy Poodle", 2, 4, 24, 28, 10, 18, "Infrequent"⟩

def rawYorkie : RawRow := ⟨"Yorkshire Terrier", 2, 3, 18, 23, 11, 15, "Infrequent"⟩

def rawPug : RawRow := ⟨"Pug", 6, 8, 25, 33, 13, 15, "Seasonal"⟩

def rawBeagle : RawRow := ⟨"Beagle", 9, 11, 33, 41, 10, 15, "Frequent"⟩

/-! ### Helper lemmas -/

theorem toList_mk (l : List Char) : (String.mk l).toList = l := rfl

theorem startsWithChars_refl : ∀ (l : List Char), startsWithChars l l = true := by
  intro l
  induction l with
  | nil => rfl
  | cons a as ih => simp [startsWithChars, ih]

theorem isSubstrB_of_drop (n : List Char) :
    ∀ (cs : List Char) (i : Nat), startsWithChars n (cs.drop i) = true → isSubstrB n cs = true := by
  intro cs
  induction cs with
  | nil =>
    intro i h
    rw [List.drop_nil] at h
    cases n with
    | nil => rfl
    | cons b bs => simp [startsWithChars] at h
  | cons c rest ih =>
    intro i h
    cases i with
    | zero =>
      rw [List.drop_zero] at h
      simp [isSubstrB, h]
    | succ j =>
      rw [List.drop_succ_cons] at h
      simp [isSubstrB, ih j h]

theorem isSubstrB_append_self (pre n : List Char) : isSubstrB n (pre ++ n) = true := by
  apply isSubstrB_of_drop n (pre ++ n) pre.length
  rw [List.drop_left]
  exact startsWithChars_refl n

theorem matchHere_nil : matchHere [] = none := rfl

theorem matchHere_some_stem (cs r : List Char) (h : matchHere cs = some r) :
    startsWithChars urlStem cs = true := by
  by_cases hp : startsWithChars urlStem cs = true
  · exact hp
  · unfold matchHere at h
    rw [if_neg hp] at h
    cases h

theorem searchBreed_isSome_iff : ∀ (cs : List Char),
    (searchBreed cs).isSome = true ↔ ∃ i, (matchHere (cs.drop i)).isSome = true := by
  intro cs
  induction cs with
  | nil =>
    constructor
    · intro h
      simp [searchBreed] at h
    · rintro ⟨i, hi⟩
      rw [List.drop_nil, matchHere_nil] at hi
      simp at hi
  | cons c rest ih =>
    constructor
    · intro h
      unfold searchBreed at h
      cases hm : matchHere (c :: rest) with
      | some r => exact ⟨0, by simp [hm]⟩
      | none =>
        rw [hm] at h
        obtain ⟨j, hj⟩ := ih.mp h
        exact ⟨j + 1, by rw [List.drop_succ_cons]; exact hj⟩
    · rintro ⟨i, hi⟩
      unfold searchBreed
      cases hm : matchHere (c :: rest) with
      | some r => simp
      | none =>
        cases i with
        | zero =>
          rw [List.drop_zero, hm] at hi
          simp at hi
        | succ j =>
          rw [List.drop_succ_cons] at hi
          exact ih.mpr ⟨j, hi⟩

theorem searchBreed_some_stem : ∀ (cs r : List Char),
    searchBreed cs = some r → ∃ i, startsWithChars urlStem (cs.drop i) = true := by
  intro cs
  induction cs with
  | nil =>
    intro r h
    simp [searchBreed] at h
  | cons c rest ih =>
    intro r h
    unfold searchBreed at h
    cases hm : matchHere (c :: rest) with
    | some q =>
      exact ⟨0, by rw [List.drop_zero]; exact matchHere_some_stem _ q hm⟩
    | none =>
      rw [hm] at h
      obtain ⟨i, hi⟩ := ih r h
      exact ⟨i + 1, by rw [List.drop_succ_cons]; exact hi⟩

theorem splitHyphen_parts_no_hyphen : ∀ (cs : List Char) (p : List Char),
    p ∈ splitHyphen cs → '-' ∉ p := by
  intro cs
  induction cs with
  | nil =>
    intro p hp
    simp [splitHyphen] at hp
    subst hp
    simp
  | cons c rest ih =>
    intro p hp
    by_cases hc : c = '-'
    · rw [splitHyphen, if_pos hc] at hp
      rcases List.mem_cons.mp hp with he | hm
      · subst he; simp
      · exact ih p hm
    · rw [splitHyphen, if_neg hc] at hp
      cases h : splitHyphen rest with
      | nil =>
        rw [h] at hp
        rcases List.mem_cons.mp hp with he | hm
        · subst he
          intro hx
          rcases List.mem_cons.mp hx with he2 | hm2
          · exact hc he2.symm
          · simp at hm2
        · simp at hm
      | cons q qs =>
        rw [h] at hp
        rcases List.mem_cons.mp hp with he | hm
        · subst he
          intro hx
          rcases List.mem_cons.mp hx with he2 | hm2
          · exact hc he2.symm
          · exact ih q (by rw [h]; exact List.mem_cons_self q qs) hm2
        · exact ih p (by rw [h]; exact List.mem_cons_of_mem q hm)

theorem splitHyphen_eq_single : ∀ (cs : List Char), '-' ∉ cs → splitHyphen cs = [cs] := by
  intro cs
  induction cs with
  | nil => intro _; rfl
  | cons c rest ih =>
    intro h
    have hc : ¬(c = '-') := by
      intro e
      exact h (by rw [e]; exact List.mem_cons_self _ _)
    have hr : '-' ∉ rest := fun m => h (List.mem_cons_of_mem _ m)
    rw [splitHyphen, if_neg hc, ih hr]

theorem joinSpaces_no_hyphen : ∀ (ps : List (List Char)),
    (∀ p ∈ ps, '-' ∉ p) → '-' ∉ joinSpaces ps := by
  intro ps
  induction ps with
  | nil =>
    intro _
    simp [joinSpaces]
  | cons p rest ih =>
    intro h
    rw [joinSpaces]
    by_cases hr : rest.isEmpty
    · rw [if_pos hr]
      exact h p (List.mem_cons_self p rest)
    · rw [if_neg hr]
      intro hm
      rcases List.mem_append.mp hm with hp | hq
      · exact h p (List.mem_cons_self p rest) hp
      · rcases List.mem_cons.mp hq with he | hj
        · exact absurd he (by decide)
        · exact ih (fun q hq2 => h q (List.mem_cons_of_mem _ hq2)) hj

theorem extract_isSome_eq (url : String) :
    (extract_breed_name url).isSome = (searchBreed url.toList).isSome := by
  rw [extract_breed_name]
  cases searchBreed url.toList with
  | none => rfl
  | some run =>
    show (if run.contains '-' = true then some (String.mk (joinSpaces (splitHyphen run).reverse))
        else some (String.mk run)).isSome = (some run).isSome
    by_cases hc : run.contains '-' = true
    · rw [if_pos hc]; rfl
    · rw [if_neg hc]; rfl

/-! ### Claim theorems -/

/-- C1: breed lookup tries an exact match on the normalized breed name
first, falls back to case-insensitive substring containment only when no
exact match exists, in either pass returns the first matching record in
dataset order, and returns nothing when both passes fail; in particular
token "poodle" against names ["poodle", "toy poodle"] returns the "poodle"
record, and token "yorkshire" against ["yorkshire terrier"] returns the
"yorkshire terrier" record. -/
theorem breed_lookup_two_pass :
    (∀ (df : List Row) (tok : String),
        search_breed_in_dataframe df tok =
          match (df.filter (fun r => r.breed_lower == tok)).head? with
          | some r => some r
          | none => (df.filter (fun r => containsCI r.breed_lower tok)).head?)
  ∧ search_breed_in_dataframe (read_and_process_csv [rawPoodle, rawToyPoodle]) "poodle"
      = some (processRow rawPoodle)
  ∧ search_breed_in_dataframe (read_and_process_csv [rawYorkie]) "yorkshire"
      = some (processRow rawYorkie)
  ∧ search_breed_in_dataframe (read_and_process_csv [rawPoodle, rawToyPoodle]) "xyz123"
      = none := by
  refine ⟨?_, rfl, rfl, rfl⟩
  intro df tok
  simp only [List.filter_head?]
  rfl

/-- C2: extraction produces a token exactly when the URL contains the fixed
pattern at some position; the token returned is the captured run with its
hyphen-separated components reversed and joined by single spaces (a
hyphen-free run comes back unchanged, which the uniform reverse-and-join
form also covers); concretely "spaniel-cocker" becomes "cocker spaniel",
"pug" stays "pug", and a URL without the pattern yields none. -/
theorem extract_token_pattern_and_transform :
    (∀ (url : String), (extract_breed_name url).isSome = true ↔
        ∃ i, (matchHere (url.toList.drop i)).isSome = true)
  ∧ (∀ (url : String) (run : List Char), searchBreed url.toList = some run →
        extract_breed_name url = some (String.mk (joinSpaces (splitHyphen run).reverse)))
  ∧ extract_breed_name "https://images.dog.ceo/breeds/spaniel-cocker/n2.jpg"
      = some "cocker spaniel"
  ∧ extract_breed_name "https://images.dog.ceo/breeds/pug/n2.jpg" = some "pug"
  ∧ extract_breed_name "https://dog.ceo/api/woof.jpg" = none := by
  refine ⟨?_, ?_, rfl, rfl, rfl⟩
  · intro url
    rw [extract_isSome_eq]
    exact searchBreed_isSome_iff url.toList
  · intro url run hs
    rw [extract_breed_name, hs]
    show (if run.contains '-' = true then some (String.mk (joinSpaces (splitHyphen run).reverse))
        else some (String.mk run))
      = some (String.mk (joinSpaces (splitHyphen run).reverse))
    by_cases hc : run.contains '-' = true
    · rw [if_pos hc]
    · rw [if_neg hc]
      have hmem : '-' ∉ run := by
        intro hm
        exact hc (by simp [List.contains, List.elem_eq_mem, hm])
      rw [splitHyphen_eq_single run hmem]
      rfl

/-- C2 witness: at a concrete URL whose captured run is "pug", the reversal
equation of the theorem holds with its hypothesis discharged by rfl. -/
theorem extract_token_pattern_and_transform_witness :
    extract_breed_name "https://images.dog.ceo/breeds/pug/w.jpg"
      = some (String.mk (joinSpaces (splitHyphen "pug".toList).reverse)) :=
  extract_token_pattern_and_transform.2.1 "https://images.dog.ceo/breeds/pug/w.jpg"
    "pug".toList rfl

/-- C3 counterexample: the claim says extraction accepts any host of the
form images.given-host and returns "yorkshire terrier" for the
images.example.com URL; the code's pattern pins the host to images.dog.ceo,
so that URL yields no token at all. -/
theorem extract_generic_host_counterexample :
    extract_breed_name "https://images.example.com/breeds/terrier-yorkshire/n1.jpg" = none
  ∧ ¬ extract_breed_name "https://images.example.com/breeds/terrier-yorkshire/n1.jpg"
      = some "yorkshire terrier" :=
  ⟨rfl, fun h => Option.noConfusion h⟩

/-- C3 amended: breed-token extraction accepts only the exact host
images.dog.ceo — every produced token comes from a URL containing the
literal stem https with images.dog.ceo/breeds/ — and on that host the
terrier-yorkshire URL gives "yorkshire terrier", the pug URL gives "pug",
and a URL lacking the pattern gives no token. -/
theorem extract_host_fixed_dog_ceo :
    extract_breed_name "https://images.dog.ceo/breeds/terrier-yorkshire/n1.jpg"
      = some "yorkshire terrier"
  ∧ extract_breed_name "https://images.dog.ceo/breeds/pug/n1.jpg" = some "pug"
  ∧ extract_breed_name "https://dog.ceo/api/img/1.jpg" = none
  ∧ (∀ (url t : String), extract_breed_name url = some t →
        isSubstrB urlStem url.toList = true) := by
  refine ⟨rfl, rfl, rfl, ?_⟩
  intro url t h
  cases hs : searchBreed url.toList with
  | none =>
    rw [extract_breed_name, hs] at h
    cases h
  | some run =>
    obtain ⟨i, hi⟩ := searchBreed_some_stem url.toList run hs
    exact isSubstrB_of_drop urlStem url.toList i hi

/-- C3 witness: the host-restriction conjunct of the amended theorem applied
at the concrete terrier-yorkshire URL, its hypothesis discharged by rfl. -/
theorem extract_host_fixed_dog_ceo_witness :
    isSubstrB urlStem ("https://images.dog.ceo/breeds/terrier-yorkshire/n1.jpg" : String).toList
      = true :=
  extract_host_fixed_dog_ceo.2.2.2 "https://images.dog.ceo/breeds/terrier-yorkshire/n1.jpg"
    "yorkshire terrier" rfl

/-- C4 counterexample: with the stub returning one invalid URL and then the
images.x.com pug URL of the claim, the loop resolves nothing — the second
URL does not match the host-pinned pattern, so no token is produced and the
loop does not terminate on the second attempt with the pug record. -/
theorem resolver_generic_host_counterexample :
    resolveLoop (read_and_process_csv [rawBeagle, rawPug])
        [some "https://example.com/x.jpg", some "https://images.x.com/breeds/pug/1.jpg"]
      = Except.ok none
  ∧ extract_breed_name "https://images.x.com/breeds/pug/1.jpg" = none := ⟨rfl, rfl⟩

/-- C4 amended: with the stub returning one invalid URL and then an
images.dog.ceo pug URL, the loop discards the first response (no token) and
terminates on the second attempt, returning the "pug" record of the dataset
together with that second URL. -/
theorem resolver_discards_then_resolves_pug :
    extract_breed_name "https://example.com/x.jpg" = none
  ∧ resolveLoop (read_and_process_csv [rawBeagle, rawPug])
        [some "https://example.com/x.jpg", some "https://images.dog.ceo/breeds/pug/1.jpg"]
      = Except.ok (some ⟨some "https://images.dog.ceo/breeds/pug/1.jpg", "pug",
          processRow rawPug⟩) := ⟨rfl, rfl⟩

/-- C5: evaluation at the failing input.  When the collaborator reports a
non-success status, request_dog_api_data returns None; main then hands that
None to extract_breed_name, whose re.search raises TypeError, so the loop
crashes instead of silently retrying as the claim states. -/
theorem api_failure_crashes_loop :
    request_dog_api_data 500 (some "https://images.dog.ceo/breeds/pug/1.jpg") = none
  ∧ extract_breed_name_py
        (request_dog_api_data 500 (some "https://images.dog.ceo/breeds/pug/1.jpg"))
      = Except.error PyError.typeError
  ∧ resolveLoop (read_and_process_csv [rawBeagle, rawPug])
        [request_dog_api_data 500 (some "https://images.dog.ceo/breeds/pug/1.jpg")]
      = Except.error PyError.typeError := ⟨rfl, rfl, rfl⟩

/-- C6 counterexample: token "Pug" equals the stored name "pug" up to letter
case, yet the exact pass returns nothing — it compares the token verbatim
against the lower-cased name. -/
theorem exact_pass_case_counterexample :
    exactPass (read_and_process_csv [rawPug]) "Pug" = none := rfl

/-- C6 amended: the exact pass succeeds precisely when the token is
verbatim equal to some record's lower-cased breed name, so it is
case-insensitive in the stored name but case-sensitive in the token; a
token that differs in case is still found, but only by the containment
fallback of the full lookup. -/
theorem exact_pass_verbatim_on_lowered_names :
    (∀ (df : List Row) (tok : String) (r : Row),
        exactPass df tok = some r → r.breed_lower = tok)
  ∧ (∀ (df : List Row) (tok : String),
        (exactPass df tok).isSome = true ↔ ∃ r, r ∈ df ∧ r.breed_lower = tok)
  ∧ search_breed_in_dataframe (read_and_process_csv [rawPug]) "Pug"
      = some (processRow rawPug) := by
  refine ⟨?_, ?_, rfl⟩
  · intro df tok r h
    rw [exactPass] at h
    have hb := List.find?_some h
    simp at hb
    exact hb
  · intro df tok
    rw [exactPass, List.find?_isSome]
    constructor
    · rintro ⟨r, hr, hb⟩
      exact ⟨r, hr, eq_of_beq hb⟩
    · rintro ⟨r, hr, hb⟩
      exact ⟨r, hr, by rw [hb]; exact beq_self_eq_true tok⟩

/-- C6 witness: both universally quantified parts applied to the singleton
pug dataset with the lowercase token, hypotheses discharged concretely. -/
theorem exact_pass_verbatim_on_lowered_names_witness :
    (processRow rawPug).breed_lower = "pug"
  ∧ (exactPass (read_and_process_csv [rawPug]) "pug").isSome = true :=
  ⟨exact_pass_verbatim_on_lowered_names.1 (read_and_process_csv [rawPug]) "pug"
      (processRow rawPug) rfl,
   (exact_pass_verbatim_on_lowered_names.2.1 (read_and_process_csv [rawPug]) "pug").mpr
      ⟨processRow rawPug, by simp [read_and_process_csv], rfl⟩⟩

/-- C7: every record produced by the loader carries averages computed
exactly as the midpoint of its stored min and max, for weight, height and
life expectancy. -/
theorem averages_are_midpoints :
    ∀ (rows : List RawRow) (r : Row), r ∈ read_and_process_csv rows →
      r.average_weight = (r.min_weight + r.max_weight) / 2
    ∧ r.average_height = (r.min_height + r.max_height) / 2
    ∧ r.average_expectancy = (r.min_expectancy + r.max_expectancy) / 2 := by
  intro rows r hr
  rw [read_and_process_csv] at hr
  obtain ⟨raw, _, rfl⟩ := List.mem_map.mp hr
  exact ⟨rfl, rfl, rfl⟩

/-- C7 witness: the loader applied to the concrete beagle row, the
membership hypothesis discharged by simp. -/
theorem averages_are_midpoints_witness :
    (processRow rawBeagle).average_weight
        = ((processRow rawBeagle).min_weight + (processRow rawBeagle).max_weight) / 2
  ∧ (processRow rawBeagle).average_height
        = ((processRow rawBeagle).min_height + (processRow rawBeagle).max_height) / 2
  ∧ (processRow rawBeagle).average_expectancy
        = ((processRow rawBeagle).min_expectancy + (processRow rawBeagle).max_expectancy) / 2 :=
  averages_are_midpoints [rawBeagle] (processRow rawBeagle) (by simp [read_and_process_csv])

/-- C8: the single fetch of the resolved image URL shows the image on a 200
response, and on any other status shows an inline error whose message
contains the status code verbatim; the render step consumes exactly one
response and produces one view, so there is no retry and no termination. -/
theorem image_fetch_single_attempt :
    ∀ (resp : ImageResponse) (caption : String),
      (resp.status_code = 200 → render_image resp caption
          = ImageView.image resp.content caption)
    ∧ (resp.status_code ≠ 200 → ∃ msg, render_image resp caption = ImageView.error msg
          ∧ isSubstrB (toString resp.status_code).toList msg.toList = true) := by
  intro resp caption
  constructor
  · intro h
    rw [render_image, if_pos h]
  · intro h
    refine ⟨"Error code: " ++ toString resp.status_code, ?_, ?_⟩
    · rw [render_image, if_neg h]
    · have he : ("Error code: " ++ toString resp.status_code).toList
          = ("Error code: " : String).toList ++ (toString resp.status_code).toList := rfl
      rw [he]
      exact isSubstrB_append_self _ _

/-- C8 witness: the theorem applied at status 200 and at status 404, each
hypothesis discharged by decide. -/
theorem image_fetch_single_attempt_witness :
    render_image ⟨200, [7, 7]⟩ "pug" = ImageView.image [7, 7] "pug"
  ∧ ∃ msg, render_image ⟨404, [7, 7]⟩ "pug" = ImageView.error msg
      ∧ isSubstrB (toString (404 : Nat)).toList msg.toList = true :=
  ⟨(image_fetch_single_attempt ⟨200, [7, 7]⟩ "pug").1 (by decide),
   (image_fetch_single_attempt ⟨404, [7, 7]⟩ "pug").2 (by decide)⟩

/-- C9: the shedding subplot of the comparison figure always carries the
fixed category order Infrequent, Occasional, Seasonal, Regularly, Frequent,
independent of the dataset passed in and of the matched record. -/
theorem shedding_axis_fixed_category_order :
    ∀ (df df2 : List Row) (r r2 : Row),
      (display_charts df r).sheddingCategoryOrder
        = ["Infrequent", "Occasional", "Seasonal", "Regularly", "Frequent"]
    ∧ (display_charts df r).sheddingCategoryOrder
        = (display_charts df2 r2).sheddingCategoryOrder :=
  fun _ _ _ _ => ⟨rfl, rfl⟩

/-- C10: whenever extraction produces a token, that token contains no
hyphen: splitting on hyphens leaves hyphen-free pieces and joining with
spaces introduces none, and a token taken unchanged had no hyphen to begin
with. -/
theorem extracted_token_hyphen_free :
    ∀ (url t : String), extract_breed_name url = some t → '-' ∉ t.toList := by
  intro url t h
  rw [extract_breed_name] at h
  cases hs : searchBreed url.toList with
  | none =>
    rw [hs] at h
    cases h
  | some run =>
    rw [hs] at h
    have h2 : (if run.contains '-' = true
          then some (String.mk (joinSpaces (splitHyphen run).reverse))
          else some (String.mk run)) = some t := h
    by_cases hc : run.contains '-' = true
    · rw [if_pos hc] at h2
      have ht : t = String.mk (joinSpaces (splitHyphen run).reverse) :=
        (Option.some.inj h2).symm
      rw [ht, toList_mk]
      apply joinSpaces_no_hyphen
      intro p hp
      exact splitHyphen_parts_no_hyphen run p (List.mem_reverse.mp hp)
    · rw [if_neg hc] at h2
      have ht : t = String.mk run := (Option.some.inj h2).symm
      rw [ht, toList_mk]
      intro hm
      exact hc (by simp [List.contains, List.elem_eq_mem, hm])

/-- C10 witness: the theorem applied at a concrete URL whose token is
"cocker spaniel", the hypothesis discharged by rfl. -/
theorem extracted_token_hyphen_free_witness :
    '-' ∉ ("cocker spaniel" : String).toList :=
  extracted_token_hyphen_free "https://images.dog.ceo/breeds/spaniel-cocker/w1.jpg"
    "cocker spaniel" rfl

end PawShuffle
